import Mathlib

/-!
Verification of the recursive Gaussian filter core (itkFilterImageGaussian)
and the connected-threshold region-growing filter
(itkConnectedThresholdImageFilter) of this repository.

The repository contains the declaration header of `FilterImageGaussian`
(fields `a0..w1`, `K`, `m_Sigma`, `m_Spacing`, `m_Direction`, `n00..n33`,
`d11..d44`, `m11..m44`, and methods `Execute`, `SetUp`,
`ApplyRecursiveFilter`, `ComputeFilterCoefficients`, `FilterDataArray`)
but not the `.txx` implementation file; the bodies of those methods are
therefore modelled from the specification.  The implementation of
`ConnectedThresholdImageFilter` is present and is translated directly.

Scalars are modelled as exact rationals; a separate `FpVal` type records
the one non-finite floating-point value the specification talks about
(a NaN sigma).
-/

/-- A floating-point scalar as the configuration surface sees it:
either a finite value (modelled exactly as a rational) or NaN. -/
inductive FpVal where
  | fin : ℚ → FpVal
  | nan : FpVal
deriving DecidableEq, Repr

/-- Division of a possibly-non-finite sigma by a (finite) spacing;
NaN propagates. -/
def FpVal.div : FpVal → ℚ → FpVal
  | .fin q, s => .fin (q / s)
  | .nan, _ => .nan

/-- Underlying rational of a finite value; 0 for NaN (only ever used
after validation has ruled NaN out). -/
def FpVal.toRatD : FpVal → ℚ
  | .fin q => q
  | .nan => 0

/-- Error taxonomy of the specification. -/
inductive Err where
  | InvalidParameter : Err
  | NumericOverflow : Err
deriving DecidableEq, Repr

/-- The recursion coefficients consumed by one line-filtering call,
named after the fields of the `FilterImageGaussian` header: causal
feed-forward weights `n00..n33`, shared feedback (pole) weights
`d11..d44`, anticausal feed-forward weights `m11..m44`, and the
normalization factor `K`. -/
structure CoefficientSet where
  n00 : ℚ
  n11 : ℚ
  n22 : ℚ
  n33 : ℚ
  d11 : ℚ
  d22 : ℚ
  d33 : ℚ
  d44 : ℚ
  m11 : ℚ
  m22 : ℚ
  m33 : ℚ
  m44 : ℚ
  K : ℚ
deriving DecidableEq, Repr

/-- Sample of a line at an index, with zero for indices past the end
(the zero-padding boundary condition). -/
def inp (data : List ℚ) (i : ℕ) : ℚ := data.getD i 0

/-- Causal pass of `FilterDataArray`, modelled from the spec: a single
left-to-right sweep carrying the last three inputs `(x1, x2, x3)` and the
last four outputs `(y1, y2, y3, y4)`, both seeded with zeros
(zero-padding).  Each step emits
`n00*x + n11*x1 + n22*x2 + n33*x3 - d11*y1 - d22*y2 - d33*y3 - d44*y4`. -/
def causalPass (c : CoefficientSet) : List ℚ → ℚ × ℚ × ℚ → ℚ × ℚ × ℚ × ℚ → List ℚ
  | [], _, _ => []
  | x :: xs, (x1, x2, x3), (y1, y2, y3, y4) =>
    let y := c.n00 * x + c.n11 * x1 + c.n22 * x2 + c.n33 * x3
      - c.d11 * y1 - c.d22 * y2 - c.d33 * y3 - c.d44 * y4
    y :: causalPass c xs (x, x1, x2) (y, y1, y2, y3)

/-- Anticausal pass of `FilterDataArray`, modelled from the spec: the
mirrored sweep, run over the reversed line, carrying the last four inputs
`(x1, x2, x3, x4)` (the current sample is not used: the anticausal weights
start at `m11`) and the last four outputs, seeded with zeros.  Each step
emits `m11*x1 + m22*x2 + m33*x3 + m44*x4 - d11*y1 - d22*y2 - d33*y3 - d44*y4`. -/
def antiPass (c : CoefficientSet) : List ℚ → ℚ × ℚ × ℚ × ℚ → ℚ × ℚ × ℚ × ℚ → List ℚ
  | [], _, _ => []
  | x :: xs, (x1, x2, x3, x4), (y1, y2, y3, y4) =>
    let y := c.m11 * x1 + c.m22 * x2 + c.m33 * x3 + c.m44 * x4
      - c.d11 * y1 - c.d22 * y2 - c.d33 * y3 - c.d44 * y4
    y :: antiPass c xs (x, x1, x2, x3) (y, y1, y2, y3)

/-- Modelled from the spec: `FilterDataArray` (whose `.txx` body is not in
the repository) filters one line: a causal pass left to right, an
anticausal pass right to left (realised as a pass over the reversed line,
reversed back), and the combination `output[i] = K * (causal[i] + anticausal[i])`. -/
def FilterDataArray (c : CoefficientSet) (data : List ℚ) : List ℚ :=
  let causal := causalPass c data (0, 0, 0) (0, 0, 0, 0)
  let anticausal := (antiPass c data.reverse (0, 0, 0, 0) (0, 0, 0, 0)).reverse
  List.zipWith (fun a b => c.K * (a + b)) causal anticausal

/-- The causal recursion exactly as the specification states it:
`causal[i] = n0*in[i] + n1*in[i-1] + n2*in[i-2] + n3*in[i-3]
 - d1*causal[i-1] - d2*causal[i-2] - d3*causal[i-3] - d4*causal[i-4]`,
with every out-of-range (negative-index) term taken as zero. -/
def causalSpec (c : CoefficientSet) (data : List ℚ) (i : ℕ) : ℚ :=
  c.n00 * inp data i
    + (if 1 ≤ i then c.n11 * inp data (i - 1) else 0)
    + (if 2 ≤ i then c.n22 * inp data (i - 2) else 0)
    + (if 3 ≤ i then c.n33 * inp data (i - 3) else 0)
    - (if h : 1 ≤ i then c.d11 * causalSpec c data (i - 1) else 0)
    - (if h : 2 ≤ i then c.d22 * causalSpec c data (i - 2) else 0)
    - (if h : 3 ≤ i then c.d33 * causalSpec c data (i - 3) else 0)
    - (if h : 4 ≤ i then c.d44 * causalSpec c data (i - 4) else 0)
termination_by i
decreasing_by all_goals omega

/-- The anticausal recursion exactly as the specification states it, with
every term of index `≥ L` taken as zero:
`anticausal[i] = m1*in[i+1] + m2*in[i+2] + m3*in[i+3] + m4*in[i+4]
 - d1*anticausal[i+1] - d2*anticausal[i+2] - d3*anticausal[i+3] - d4*anticausal[i+4]`
(the input terms past the end are zero through `inp`, and the sequence
itself is zero from `L` on). -/
def antiSpec (c : CoefficientSet) (data : List ℚ) (i : ℕ) : ℚ :=
  if h : i < data.length then
    c.m11 * inp data (i + 1) + c.m22 * inp data (i + 2)
      + c.m33 * inp data (i + 3) + c.m44 * inp data (i + 4)
      - c.d11 * antiSpec c data (i + 1) - c.d22 * antiSpec c data (i + 2)
      - c.d33 * antiSpec c data (i + 3) - c.d44 * antiSpec c data (i + 4)
  else 0
termination_by data.length - i
decreasing_by all_goals omega

/-- The anticausal recursion written in the coordinates of the reversed
line: for a list `ys`, index `j` counts from the right end of the original
line, the weights `m11..m44` read the four previous reversed samples and
the feedback reads the four previous reversed outputs. -/
def antiRevSpec (c : CoefficientSet) (ys : List ℚ) (j : ℕ) : ℚ :=
  (if 1 ≤ j then c.m11 * inp ys (j - 1) else 0)
    + (if 2 ≤ j then c.m22 * inp ys (j - 2) else 0)
    + (if 3 ≤ j then c.m33 * inp ys (j - 3) else 0)
    + (if 4 ≤ j then c.m44 * inp ys (j - 4) else 0)
    - (if h : 1 ≤ j then c.d11 * antiRevSpec c ys (j - 1) else 0)
    - (if h : 2 ≤ j then c.d22 * antiRevSpec c ys (j - 2) else 0)
    - (if h : 3 ≤ j then c.d33 * antiRevSpec c ys (j - 3) else 0)
    - (if h : 4 ≤ j then c.d44 * antiRevSpec c ys (j - 4) else 0)
termination_by j
decreasing_by all_goals omega

/-- Input history seen by a pass that has consumed the first `p` samples:
the sample `k` positions back, zero when it does not exist. -/
def histIn (data : List ℚ) (p k : ℕ) : ℚ :=
  if k ≤ p then inp data (p - k) else 0

/-- Causal-output history: the causal value `k` positions back, zero when
it does not exist. -/
def histC (c : CoefficientSet) (data : List ℚ) (p k : ℕ) : ℚ :=
  if k ≤ p then causalSpec c data (p - k) else 0

/-- Anticausal-output history in reversed coordinates. -/
def histA (c : CoefficientSet) (ys : List ℚ) (p k : ℕ) : ℚ :=
  if k ≤ p then antiRevSpec c ys (p - k) else 0

lemma histIn_succ (data : List ℚ) (p k : ℕ) :
    histIn data (p + 1) (k + 1) = histIn data p k := by
  simp [histIn, Nat.succ_sub_succ]

lemma histIn_succ_one (data : List ℚ) (p : ℕ) :
    histIn data (p + 1) 1 = inp data p := by
  simp [histIn]

lemma histC_succ (c : CoefficientSet) (data : List ℚ) (p k : ℕ) :
    histC c data (p + 1) (k + 1) = histC c data p k := by
  simp [histC, Nat.succ_sub_succ]

lemma histC_succ_one (c : CoefficientSet) (data : List ℚ) (p : ℕ) :
    histC c data (p + 1) 1 = causalSpec c data p := by
  simp [histC]

lemma histA_succ (c : CoefficientSet) (ys : List ℚ) (p k : ℕ) :
    histA c ys (p + 1) (k + 1) = histA c ys p k := by
  simp [histA, Nat.succ_sub_succ]

lemma histA_succ_one (c : CoefficientSet) (ys : List ℚ) (p : ℕ) :
    histA c ys (p + 1) 1 = antiRevSpec c ys p := by
  simp [histA]

lemma causalSpec_eq_hist (c : CoefficientSet) (data : List ℚ) (p : ℕ) :
    causalSpec c data p =
      c.n00 * inp data p + c.n11 * histIn data p 1 + c.n22 * histIn data p 2
        + c.n33 * histIn data p 3 - c.d11 * histC c data p 1
        - c.d22 * histC c data p 2 - c.d33 * histC c data p 3
        - c.d44 * histC c data p 4 := by
  rw [causalSpec]
  simp only [histIn, histC, dite_eq_ite, mul_ite, mul_zero]

lemma antiRevSpec_eq_hist (c : CoefficientSet) (ys : List ℚ) (p : ℕ) :
    antiRevSpec c ys p =
      c.m11 * histIn ys p 1 + c.m22 * histIn ys p 2 + c.m33 * histIn ys p 3
        + c.m44 * histIn ys p 4 - c.d11 * histA c ys p 1
        - c.d22 * histA c ys p 2 - c.d33 * histA c ys p 3
        - c.d44 * histA c ys p 4 := by
  rw [antiRevSpec]
  simp only [histIn, histA, dite_eq_ite, mul_ite, mul_zero]

lemma causalPass_enum (c : CoefficientSet) (data : List ℚ) (n : ℕ) :
    ∀ p, p + n = data.length →
    causalPass c (data.drop p)
        (histIn data p 1, histIn data p 2, histIn data p 3)
        (histC c data p 1, histC c data p 2, histC c data p 3, histC c data p 4)
      = (List.range n).map (fun j => causalSpec c data (p + j)) := by
  induction n with
  | zero =>
    intro p hp
    have hp' : data.length ≤ p := by omega
    simp [List.drop_of_length_le hp', causalPass]
  | succ m ih =>
    intro p hp
    have hplen : p < data.length := by omega
    rw [List.drop_eq_getElem_cons hplen]
    simp only [causalPass]
    rw [List.range_succ_eq_map, List.map_cons, List.map_map]
    have hhead :
        c.n00 * data[p] + c.n11 * histIn data p 1 + c.n22 * histIn data p 2
          + c.n33 * histIn data p 3 - c.d11 * histC c data p 1
          - c.d22 * histC c data p 2 - c.d33 * histC c data p 3
          - c.d44 * histC c data p 4 = causalSpec c data p := by
      rw [causalSpec_eq_hist]
      congr 1
      rw [inp, List.getD_eq_getElem _ _ hplen]
    congr 1
    rw [hhead]
    have hx1 : (data[p] : ℚ) = histIn data (p + 1) 1 := by
      rw [histIn_succ_one, inp, List.getD_eq_getElem _ _ hplen]
    have hmap : ((fun j => causalSpec c data (p + j)) ∘ Nat.succ)
        = fun j => causalSpec c data ((p + 1) + j) := by
      funext j
      simp only [Function.comp_apply, Nat.succ_eq_add_one]
      congr 1
      omega
    rw [hmap, hx1,
      show histIn data p 1 = histIn data (p + 1) 2 from (histIn_succ data p 1).symm,
      show histIn data p 2 = histIn data (p + 1) 3 from (histIn_succ data p 2).symm,
      show causalSpec c data p = histC c data (p + 1) 1 from
        (histC_succ_one c data p).symm,
      show histC c data p 1 = histC c data (p + 1) 2 from (histC_succ c data p 1).symm,
      show histC c data p 2 = histC c data (p + 1) 3 from (histC_succ c data p 2).symm,
      show histC c data p 3 = histC c data (p + 1) 4 from (histC_succ c data p 3).symm]
    exact ih (p + 1) (by omega)

lemma antiPass_enum (c : CoefficientSet) (ys : List ℚ) (n : ℕ) :
    ∀ p, p + n = ys.length →
    antiPass c (ys.drop p)
        (histIn ys p 1, histIn ys p 2, histIn ys p 3, histIn ys p 4)
        (histA c ys p 1, histA c ys p 2, histA c ys p 3, histA c ys p 4)
      = (List.range n).map (fun j => antiRevSpec c ys (p + j)) := by
  induction n with
  | zero =>
    intro p hp
    have hp' : ys.length ≤ p := by omega
    simp [List.drop_of_length_le hp', antiPass]
  | succ m ih =>
    intro p hp
    have hplen : p < ys.length := by omega
    rw [List.drop_eq_getElem_cons hplen]
    simp only [antiPass]
    rw [List.range_succ_eq_map, List.map_cons, List.map_map]
    have hhead :
        c.m11 * histIn ys p 1 + c.m22 * histIn ys p 2 + c.m33 * histIn ys p 3
          + c.m44 * histIn ys p 4 - c.d11 * histA c ys p 1
          - c.d22 * histA c ys p 2 - c.d33 * histA c ys p 3
          - c.d44 * histA c ys p 4 = antiRevSpec c ys p :=
      (antiRevSpec_eq_hist c ys p).symm
    congr 1
    rw [hhead]
    have hx1 : (ys[p] : ℚ) = histIn ys (p + 1) 1 := by
      rw [histIn_succ_one, inp, List.getD_eq_getElem _ _ hplen]
    have hmap : ((fun j => antiRevSpec c ys (p + j)) ∘ Nat.succ)
        = fun j => antiRevSpec c ys ((p + 1) + j) := by
      funext j
      simp only [Function.comp_apply, Nat.succ_eq_add_one]
      congr 1
      omega
    rw [hmap, hx1,
      show histIn ys p 1 = histIn ys (p + 1) 2 from (histIn_succ ys p 1).symm,
      show histIn ys p 2 = histIn ys (p + 1) 3 from (histIn_succ ys p 2).symm,
      show histIn ys p 3 = histIn ys (p + 1) 4 from (histIn_succ ys p 3).symm,
      show antiRevSpec c ys p = histA c ys (p + 1) 1 from
        (histA_succ_one c ys p).symm,
      show histA c ys p 1 = histA c ys (p + 1) 2 from (histA_succ c ys p 1).symm,
      show histA c ys p 2 = histA c ys (p + 1) 3 from (histA_succ c ys p 2).symm,
      show histA c ys p 3 = histA c ys (p + 1) 4 from (histA_succ c ys p 3).symm]
    exact ih (p + 1) (by omega)

lemma rev_inp_term (data : List ℚ) (a : ℚ) (i k : ℕ) (hi : i < data.length)
    (hk : 1 ≤ k) :
    (if k ≤ data.length - 1 - i then
        a * inp data.reverse (data.length - 1 - i - k) else 0)
      = a * inp data (i + k) := by
  by_cases h : i + k < data.length
  · rw [if_pos (by omega)]
    congr 1
    rw [inp, inp, List.getD_eq_getElem _ _ (by simp; omega),
      List.getD_eq_getElem _ _ h, List.getElem_reverse]
    congr 1
    omega
  · rw [if_neg (by omega), inp, List.getD_eq_default _ _ (by omega), mul_zero]

lemma rev_anti_term (c : CoefficientSet) (data : List ℚ) (a : ℚ) (i k : ℕ)
    (hi : i < data.length) (hk : 1 ≤ k)
    (IH : i + k < data.length →
      antiRevSpec c data.reverse (data.length - 1 - (i + k)) = antiSpec c data (i + k)) :
    (if k ≤ data.length - 1 - i then
        a * antiRevSpec c data.reverse (data.length - 1 - i - k) else 0)
      = a * antiSpec c data (i + k) := by
  by_cases h : i + k < data.length
  · rw [if_pos (by omega),
      show data.length - 1 - i - k = data.length - 1 - (i + k) by omega, IH h]
  · rw [if_neg (by omega), antiSpec, dif_neg (by omega), mul_zero]

lemma antiRev_eq_antiSpec (c : CoefficientSet) (data : List ℚ) :
    ∀ i, i < data.length →
      antiRevSpec c data.reverse (data.length - 1 - i) = antiSpec c data i := by
  have H : ∀ m i, i < data.length → data.length - i = m →
      antiRevSpec c data.reverse (data.length - 1 - i) = antiSpec c data i := by
    intro m
    induction m using Nat.strong_induction_on with
    | _ m ih =>
      intro i hi hm
      have hIH : ∀ k, 1 ≤ k → i + k < data.length →
          antiRevSpec c data.reverse (data.length - 1 - (i + k)) = antiSpec c data (i + k) := by
        intro k hk hik
        exact ih (data.length - (i + k)) (by omega) (i + k) hik rfl
      rw [antiRevSpec, antiSpec, dif_pos hi]
      simp only [dite_eq_ite]
      rw [rev_inp_term data c.m11 i 1 hi (by omega),
        rev_inp_term data c.m22 i 2 hi (by omega),
        rev_inp_term data c.m33 i 3 hi (by omega),
        rev_inp_term data c.m44 i 4 hi (by omega),
        rev_anti_term c data c.d11 i 1 hi (by omega) (hIH 1 (by omega)),
        rev_anti_term c data c.d22 i 2 hi (by omega) (hIH 2 (by omega)),
        rev_anti_term c data c.d33 i 3 hi (by omega) (hIH 3 (by omega)),
        rev_anti_term c data c.d44 i 4 hi (by omega) (hIH 4 (by omega))]
  intro i hi
  exact H (data.length - i) i hi rfl

lemma causalPass_length (c : CoefficientSet) :
    ∀ (l : List ℚ) xs ys, (causalPass c l xs ys).length = l.length := by
  intro l
  induction l with
  | nil => intro xs ys; obtain ⟨x1, x2, x3⟩ := xs; obtain ⟨y1, y2, y3, y4⟩ := ys; rfl
  | cons a t ih =>
    intro xs ys
    obtain ⟨x1, x2, x3⟩ := xs
    obtain ⟨y1, y2, y3, y4⟩ := ys
    simp only [causalPass, List.length_cons]
    rw [ih]

lemma antiPass_length (c : CoefficientSet) :
    ∀ (l : List ℚ) xs ys, (antiPass c l xs ys).length = l.length := by
  intro l
  induction l with
  | nil => intro xs ys; obtain ⟨x1, x2, x3, x4⟩ := xs; obtain ⟨y1, y2, y3, y4⟩ := ys; rfl
  | cons a t ih =>
    intro xs ys
    obtain ⟨x1, x2, x3, x4⟩ := xs
    obtain ⟨y1, y2, y3, y4⟩ := ys
    simp only [antiPass, List.length_cons]
    rw [ih]

lemma range_map_getD (f : ℕ → ℚ) (n i : ℕ) (h : i < n) :
    ((List.range n).map f).getD i 0 = f i := by
  rw [List.getD_eq_getElem _ _ (by simpa using h)]
  simp

lemma hist_zero_in (data : List ℚ) (k : ℕ) (hk : 1 ≤ k) : histIn data 0 k = 0 := by
  simp [histIn]
  omega

lemma hist_zero_c (c : CoefficientSet) (data : List ℚ) (k : ℕ) (hk : 1 ≤ k) :
    histC c data 0 k = 0 := by
  simp [histC]
  omega

lemma hist_zero_a (c : CoefficientSet) (ys : List ℚ) (k : ℕ) (hk : 1 ≤ k) :
    histA c ys 0 k = 0 := by
  simp [histA]
  omega

lemma causalPass_full (c : CoefficientSet) (data : List ℚ) :
    causalPass c data (0, 0, 0) (0, 0, 0, 0)
      = (List.range data.length).map (fun j => causalSpec c data j) := by
  have h := causalPass_enum c data data.length 0 (by omega)
  rw [List.drop_zero,
    hist_zero_in data 1 (by omega), hist_zero_in data 2 (by omega),
    hist_zero_in data 3 (by omega),
    hist_zero_c c data 1 (by omega), hist_zero_c c data 2 (by omega),
    hist_zero_c c data 3 (by omega), hist_zero_c c data 4 (by omega)] at h
  simpa using h

lemma antiPass_full (c : CoefficientSet) (ys : List ℚ) :
    antiPass c ys (0, 0, 0, 0) (0, 0, 0, 0)
      = (List.range ys.length).map (fun j => antiRevSpec c ys j) := by
  have h := antiPass_enum c ys ys.length 0 (by omega)
  rw [List.drop_zero,
    hist_zero_in ys 1 (by omega), hist_zero_in ys 2 (by omega),
    hist_zero_in ys 3 (by omega), hist_zero_in ys 4 (by omega),
    hist_zero_a c ys 1 (by omega), hist_zero_a c ys 2 (by omega),
    hist_zero_a c ys 3 (by omega), hist_zero_a c ys 4 (by omega)] at h
  simpa using h

lemma causal_getD (c : CoefficientSet) (data : List ℚ) (i : ℕ)
    (hi : i < data.length) :
    (causalPass c data (0, 0, 0) (0, 0, 0, 0)).getD i 0 = causalSpec c data i := by
  rw [causalPass_full, range_map_getD _ _ _ hi]

lemma reverse_getD (l : List ℚ) (i : ℕ) (hi : i < l.length) :
    l.reverse.getD i 0 = l.getD (l.length - 1 - i) 0 := by
  rw [List.getD_eq_getElem _ _ (by simpa using hi),
    List.getD_eq_getElem _ _ (by omega)]
  exact List.getElem_reverse ..

lemma zipWith_getD (f : ℚ → ℚ → ℚ) (a b : List ℚ) (i : ℕ)
    (ha : i < a.length) (hb : i < b.length) :
    (List.zipWith f a b).getD i 0 = f (a.getD i 0) (b.getD i 0) := by
  rw [List.getD_eq_getElem _ _ (by rw [List.length_zipWith]; omega),
    List.getElem_zipWith, List.getD_eq_getElem _ _ ha, List.getD_eq_getElem _ _ hb]

lemma anti_getD (c : CoefficientSet) (data : List ℚ) (i : ℕ)
    (hi : i < data.length) :
    ((antiPass c data.reverse (0, 0, 0, 0) (0, 0, 0, 0)).reverse).getD i 0
      = antiSpec c data i := by
  have hlen : (antiPass c data.reverse (0, 0, 0, 0) (0, 0, 0, 0)).length
      = data.length := by
    rw [antiPass_length]
    simp
  rw [reverse_getD _ i (by omega), hlen, antiPass_full]
  rw [show data.reverse.length = data.length from List.length_reverse data]
  rw [range_map_getD _ _ _ (by omega)]
  exact antiRev_eq_antiSpec c data i hi

lemma FilterDataArray_getD (c : CoefficientSet) (data : List ℚ) (i : ℕ)
    (hi : i < data.length) :
    (FilterDataArray c data).getD i 0
      = c.K * (causalSpec c data i + antiSpec c data i) := by
  unfold FilterDataArray
  have h1 : (causalPass c data (0, 0, 0) (0, 0, 0, 0)).length = data.length :=
    causalPass_length c data _ _
  have h2 : ((antiPass c data.reverse (0, 0, 0, 0) (0, 0, 0, 0)).reverse).length
      = data.length := by
    rw [List.length_reverse, antiPass_length]
    simp
  rw [zipWith_getD _ _ _ i (by omega) (by omega),
    causal_getD c data i hi, anti_getD c data i hi]

lemma FilterDataArray_len (c : CoefficientSet) (data : List ℚ) :
    (FilterDataArray c data).length = data.length := by
  unfold FilterDataArray
  rw [List.length_zipWith, List.length_reverse, causalPass_length, antiPass_length]
  simp

/-- The intermediate complex-exponential-derived parameters of the
coefficient derivation, named after the header fields `a0..w1`. -/
structure ExpParams where
  a0 : ℚ
  a1 : ℚ
  b0 : ℚ
  b1 : ℚ
  c0 : ℚ
  c1 : ℚ
  w0 : ℚ
  w1 : ℚ
deriving DecidableEq, Repr

/-- The numeric building blocks of the coefficient derivation.  The `.txx`
implementation is not in the repository and the spec names the closed-form
fits only as fixed published constants, so the individual formulas are
abstracted as parameters; what matters for the claims is the dataflow:
everything is a function of the effective sigma and the symmetry flag
alone. -/
structure SolverPrims where
  fit : ℚ → ExpParams
  expandN : ExpParams → ℚ → ℚ × ℚ × ℚ × ℚ
  expandD : ExpParams → ℚ → ℚ × ℚ × ℚ × ℚ
  antiRelation : Bool → ℚ × ℚ × ℚ × ℚ → ℚ × ℚ × ℚ × ℚ → ℚ × ℚ × ℚ × ℚ
  normalize : Bool → ℚ → ExpParams → ℚ

/-- Modelled from the spec: `CoefficientSolver` (the body of
`ComputeFilterCoefficients` is not in the repository).  From the effective
sigma it derives the exponential parameters by the closed-form fits,
expands them into the causal weights `n00..n33` and pole weights
`d11..d44`, derives the anticausal weights `m11..m44` by the symmetry
relation selected by the flag, and computes the normalization `K`. -/
def CoefficientSolver (P : SolverPrims) (effSigma : ℚ) (symmetric : Bool) :
    ExpParams × CoefficientSet :=
  let ep := P.fit effSigma
  let n := P.expandN ep effSigma
  let d := P.expandD ep effSigma
  let m := P.antiRelation symmetric n d
  let Kv := P.normalize symmetric effSigma ep
  (ep, ⟨n.1, n.2.1, n.2.2.1, n.2.2.2, d.1, d.2.1, d.2.2.1, d.2.2.2,
    m.1, m.2.1, m.2.2.1, m.2.2.2, Kv⟩)

/-- The mutable state of a `FilterImageGaussian` object, mirroring the
fields declared in the header: exponential parameters, normalization `K`,
configuration (`m_Sigma`, `m_Spacing`, `m_Direction`) and the three groups
of recursion coefficients. -/
structure FilterState where
  a0 : ℚ
  a1 : ℚ
  b0 : ℚ
  b1 : ℚ
  c0 : ℚ
  c1 : ℚ
  w0 : ℚ
  w1 : ℚ
  K : ℚ
  m_Sigma : FpVal
  m_Spacing : ℚ
  m_Direction : ℕ
  n00 : ℚ
  n11 : ℚ
  n22 : ℚ
  n33 : ℚ
  d11 : ℚ
  d22 : ℚ
  d33 : ℚ
  d44 : ℚ
  m11 : ℚ
  m22 : ℚ
  m33 : ℚ
  m44 : ℚ

/-- Modelled from the spec: `ComputeFilterCoefficients` reads the
configured sigma and spacing from the object, forms the effective sigma
`m_Sigma / m_Spacing`, and overwrites the coefficient fields with the
freshly derived values.  No other input enters the derivation. -/
def ComputeFilterCoefficients (P : SolverPrims) (symmetric : Bool)
    (st : FilterState) : FilterState :=
  let sigmad := (st.m_Sigma.div st.m_Spacing).toRatD
  let r := CoefficientSolver P sigmad symmetric
  { st with
    a0 := r.1.a0, a1 := r.1.a1, b0 := r.1.b0, b1 := r.1.b1,
    c0 := r.1.c0, c1 := r.1.c1, w0 := r.1.w0, w1 := r.1.w1,
    K := r.2.K,
    n00 := r.2.n00, n11 := r.2.n11, n22 := r.2.n22, n33 := r.2.n33,
    d11 := r.2.d11, d22 := r.2.d22, d33 := r.2.d33, d44 := r.2.d44,
    m11 := r.2.m11, m22 := r.2.m22, m33 := r.2.m33, m44 := r.2.m44 }

/-- All scalars of the derived CoefficientSet, as a list: the exponential
parameters, `K`, and the three groups of recursion coefficients. -/
def coeffFields (st : FilterState) : List ℚ :=
  [st.a0, st.a1, st.b0, st.b1, st.c0, st.c1, st.w0, st.w1, st.K,
   st.n00, st.n11, st.n22, st.n33, st.d11, st.d22, st.d33, st.d44,
   st.m11, st.m22, st.m33, st.m44]

/-- The N-dimensional array as the axis applicator sees it: number of
axes, per-axis physical spacing and extent, and for each axis the family
of 1D lines parallel to it (line extraction itself is the out-of-scope
container abstraction). -/
structure ImageModel where
  dim : ℕ
  spacing : List ℚ
  extent : List ℕ
  lines : ℕ → List (List ℚ)

/-- Modelled from the spec: `ApplyRecursiveFilter` for one axis pass.
It validates the axis index and the extent along the axis (at least 4),
computes the effective sigma `sigma / spacing[axis]`, validates it
(positive and finite), calls `CoefficientSolver` once, and filters every
line with that single CoefficientSet.  The result carries the log of
CoefficientSolver invocations (effective sigma, symmetry flag) so that
the single-call property is visible in the outcome. -/
def ApplyRecursiveFilter (P : SolverPrims) (symmetric : Bool) (sigma : FpVal)
    (img : ImageModel) (dimension : ℕ) :
    Except Err (List (List ℚ) × List (ℚ × Bool)) :=
  if dimension < img.dim then
    if img.extent.getD dimension 0 < 4 then .error .InvalidParameter
    else
      match sigma.div (img.spacing.getD dimension 0) with
      | .nan => .error .InvalidParameter
      | .fin q =>
        if q ≤ 0 then .error .InvalidParameter
        else
          let cs := (CoefficientSolver P q symmetric).2
          .ok ((img.lines dimension).map (FilterDataArray cs), [(q, symmetric)])
  else .error .InvalidParameter

/-- Modelled from the spec: `Execute` applies the axis applicator once for
the configured direction and sigma.  On success the output array holds the
filtered lines; on failure the error is surfaced and the output array
`out0` is returned exactly as supplied (all parameters are validated
before any output is written). -/
def Execute (P : SolverPrims) (symmetric : Bool) (sigma : FpVal)
    (direction : ℕ) (img : ImageModel) (out0 : List (List ℚ)) :
    Except Err Unit × List (List ℚ) :=
  match ApplyRecursiveFilter P symmetric sigma img direction with
  | .error e => (.error e, out0)
  | .ok r => (.ok (), r.1)

/-- State of the `GenerateData` write loop of
`ConnectedThresholdImageFilter`: the output buffer, the region iterator
position `rit` and the flood-fill iterator position `it`. -/
structure GenerateDataLoopState where
  out : List ℤ
  rit : ℕ
  it : ℕ
deriving DecidableEq, Repr

/-- One iteration of the write loop exactly as the source writes it: the
body executes `rit.Set(m_ReplaceValue)` (a write at the region iterator's
current position) and then `++it` — the flood-fill iterator is advanced,
the region iterator is not. -/
def generateDataStep (replaceValue : ℤ) (s : GenerateDataLoopState) :
    GenerateDataLoopState :=
  { s with out := s.out.set s.rit replaceValue, it := s.it + 1 }

/-- The write loop `while (!rit.IsAtEnd()) { rit.Set(m_ReplaceValue); ++it; }`
with explicit fuel: `some` final state if the region iterator reaches the
end of the region within `fuel` iterations, `none` otherwise. -/
def generateDataLoop (regionSize : ℕ) (replaceValue : ℤ) :
    ℕ → GenerateDataLoopState → Option GenerateDataLoopState
  | 0, s => if s.rit < regionSize then none else some s
  | fuel + 1, s =>
    if s.rit < regionSize then
      generateDataLoop regionSize replaceValue fuel (generateDataStep replaceValue s)
    else some s

/-- `GenerateData` of `ConnectedThresholdImageFilter`: allocate and zero
the output over the requested region, then run the write loop from the
start of the region; `some` of the output buffer if the loop terminates
within `fuel` iterations. -/
def GenerateData (regionSize : ℕ) (replaceValue : ℤ) (fuel : ℕ) :
    Option (List ℤ) :=
  (generateDataLoop regionSize replaceValue fuel
    ⟨List.replicate regionSize 0, 0, 0⟩).map (fun s => s.out)

/-- `NumericTraits<T>::NonpositiveMin()` for a signed two's-complement
integer pixel type of width `w`. -/
def NonpositiveMin (w : ℕ) : ℤ := -(2 ^ (w - 1))

/-- `NumericTraits<T>::max()` for a signed two's-complement integer pixel
type of width `w`. -/
def traitsMax (w : ℕ) : ℤ := 2 ^ (w - 1) - 1

/-- The values representable by a signed two's-complement integer pixel
type of width `w`. -/
def representable (w : ℕ) (v : ℤ) : Prop := -(2 ^ (w - 1)) ≤ v ∧ v < 2 ^ (w - 1)

instance (w : ℕ) (v : ℤ) : Decidable (representable w v) := by
  unfold representable
  infer_instance

/-- The configurable state of a `ConnectedThresholdImageFilter`. -/
structure ConnectedThresholdImageFilter where
  m_Lower : ℤ
  m_Upper : ℤ
  m_Seed : List ℤ
  m_ReplaceValue : ℤ
deriving DecidableEq, Repr

/-- The constructor of `ConnectedThresholdImageFilter`, translated from
the source: `m_Lower = NonpositiveMin()`, `m_Upper = max()`,
`m_Seed = ZeroIndex`, `m_ReplaceValue = One`, for a signed integer pixel
type of width `w` and image dimension `dim`. -/
def mkConnectedThresholdImageFilter (w dim : ℕ) : ConnectedThresholdImageFilter :=
  { m_Lower := NonpositiveMin w
    m_Upper := traitsMax w
    m_Seed := List.replicate dim 0
    m_ReplaceValue := 1 }

/-- A concrete coefficient set used by the witnesses. -/
def sampleCoeffs : CoefficientSet :=
  ⟨1, 2, 3, 4, 1/2, 1/3, 1/4, 1/5, 5, 6, 7, 8, 2⟩

/-- A concrete line used by the witnesses. -/
def sampleLine : List ℚ := [1, 2, 3, 4, 5]

/-- Concrete solver building blocks used by the witnesses. -/
def samplePrims : SolverPrims :=
  ⟨fun q => ⟨q, q + 1, 2 * q, 3, 4, 5, 6, 7⟩,
   fun ep s => (ep.a0 + s, ep.a1, 2, 3),
   fun ep s => (ep.b0 * s, 4, 5, 6),
   fun b n d => if b then n else d,
   fun b s ep => if b then s + ep.a1 else s - ep.a1⟩

/-- A concrete one-axis image used by the witnesses. -/
def sampleImage : ImageModel :=
  ⟨1, [1], [5], fun _ => [[1, 1, 1, 1, 1]]⟩

/-- C1: for every Line and every CoefficientSet, `FilterDataArray` returns
at each index `i` the value `K * (causal[i] + anticausal[i])`, where
`causal` is the unique solution of the causal recurrence
`causal[i] = n0*in[i] + n1*in[i-1] + n2*in[i-2] + n3*in[i-3]
 - d1*causal[i-1] - d2*causal[i-2] - d3*causal[i-3] - d4*causal[i-4]`
(negative-index terms zero, as `causalSpec` states) and `anticausal` is the
unique solution of the mirrored recursion with weights `m1..m4` and the
same `d1..d4` (index-`≥ L` terms zero, as `antiSpec` states). -/
theorem FilterDataArray_line_recursion (c : CoefficientSet) (data : List ℚ)
    (i : ℕ) (hi : i < data.length) :
    (FilterDataArray c data).getD i 0
      = c.K * (causalSpec c data i + antiSpec c data i) :=
  FilterDataArray_getD c data i hi

/-- Witness for C1 at a concrete coefficient set, line and index. -/
theorem FilterDataArray_line_recursion_witness :
    2 < sampleLine.length ∧
    (FilterDataArray sampleCoeffs sampleLine).getD 2 0
      = sampleCoeffs.K *
          (causalSpec sampleCoeffs sampleLine 2 + antiSpec sampleCoeffs sampleLine 2) :=
  ⟨by decide, FilterDataArray_line_recursion sampleCoeffs sampleLine 2 (by decide)⟩

/-- C5: for every Line of length L and every CoefficientSet,
`FilterDataArray` produces a filtered Line of exactly the same length L. -/
theorem FilterDataArray_same_length (c : CoefficientSet) (data : List ℚ) :
    (FilterDataArray c data).length = data.length :=
  FilterDataArray_len c data

/-- C7: for every line shorter than 4 samples and every coefficient set,
the filtering run completes with a full-length output whose every sample
is the well-defined (finite, exact-arithmetic) value of the zero-padded
recurrences — the missing history is absorbed by zero-padding. -/
theorem FilterDataArray_short_line_safe (c : CoefficientSet) (data : List ℚ)
    (h : data.length < 4) :
    (FilterDataArray c data).length = data.length ∧
    ∀ i, i < data.length →
      (FilterDataArray c data).getD i 0
        = c.K * (causalSpec c data i + antiSpec c data i) :=
  ⟨FilterDataArray_len c data, fun i hi => FilterDataArray_getD c data i hi⟩

/-- Witness for C7 on a concrete 3-sample line. -/
theorem FilterDataArray_short_line_safe_witness :
    (([1, 2, 3] : List ℚ).length < 4) ∧
    (FilterDataArray sampleCoeffs [1, 2, 3]).getD 1 0
      = sampleCoeffs.K *
          (causalSpec sampleCoeffs [1, 2, 3] 1 + antiSpec sampleCoeffs [1, 2, 3] 1) :=
  ⟨by decide,
    (FilterDataArray_short_line_safe sampleCoeffs [1, 2, 3] (by decide)).2 1 (by decide)⟩

/-- C4: two invocations of the coefficient derivation on states with equal
sigma and equal spacing (hence equal effective sigma) and the same
symmetry flag produce identical values in every derived scalar — the
exponential parameters `a0..w1`, the normalization `K`, and the weights
`n00..n33`, `d11..d44`, `m11..m44` — independently of any other state the
two filter objects hold. -/
theorem ComputeFilterCoefficients_deterministic (P : SolverPrims) (s : Bool)
    (st1 st2 : FilterState) (hs : st1.m_Sigma = st2.m_Sigma)
    (hsp : st1.m_Spacing = st2.m_Spacing) :
    coeffFields (ComputeFilterCoefficients P s st1)
      = coeffFields (ComputeFilterCoefficients P s st2) := by
  simp only [ComputeFilterCoefficients, coeffFields, hs, hsp]

/-- Witness for C4: two states agreeing only in sigma and spacing. -/
theorem ComputeFilterCoefficients_deterministic_witness :
    coeffFields (ComputeFilterCoefficients samplePrims true
        ⟨0, 0, 0, 0, 0, 0, 0, 0, 0, .fin 2, 1, 0, 0, 0, 0, 0, 0, 0, 0, 0, 0, 0, 0, 0⟩)
      = coeffFields (ComputeFilterCoefficients samplePrims true
        ⟨9, 8, 7, 6, 5, 4, 3, 2, 1, .fin 2, 1, 5, 1, 2, 3, 4, 5, 6, 7, 8, 9, 1, 2, 3⟩) :=
  ComputeFilterCoefficients_deterministic samplePrims true _ _ rfl rfl

/-- C2: with positive per-axis spacing (the array collaborator contract),
a configuration with sigma = 0, sigma = −1, sigma = NaN, or direction =
Dimension makes `Execute` fail with `InvalidParameter` and return the
output array exactly as supplied — no element is written. -/
theorem Execute_invalid_parameter_unmodified (P : SolverPrims)
    (symmetric : Bool) (sigma : FpVal) (direction : ℕ) (img : ImageModel)
    (out0 : List (List ℚ)) (hlen : img.spacing.length = img.dim)
    (hpos : ∀ x ∈ img.spacing, 0 < x)
    (hbad : sigma = .fin 0 ∨ sigma = .fin (-1) ∨ sigma = .nan ∨ direction = img.dim) :
    Execute P symmetric sigma direction img out0
      = (.error .InvalidParameter, out0) := by
  have happ : ApplyRecursiveFilter P symmetric sigma img direction
      = .error .InvalidParameter := by
    unfold ApplyRecursiveFilter
    by_cases hd : direction < img.dim
    · rw [if_pos hd]
      by_cases hext : img.extent.getD direction 0 < 4
      · rw [if_pos hext]
      · rw [if_neg hext]
        rcases hbad with h0 | h1 | hn | hdim
        · subst h0
          show (match FpVal.div (.fin 0) (img.spacing.getD direction 0) with
            | .nan => Except.error Err.InvalidParameter
            | .fin q => if q ≤ 0 then Except.error Err.InvalidParameter
                else Except.ok ((img.lines direction).map
                  (FilterDataArray (CoefficientSolver P q symmetric).2), [(q, symmetric)]))
            = Except.error Err.InvalidParameter
          rw [show FpVal.div (.fin 0) (img.spacing.getD direction 0)
              = .fin (0 / img.spacing.getD direction 0) from rfl]
          simp
        · subst h1
          have hdx : direction < img.spacing.length := by omega
          have hs : 0 < img.spacing.getD direction 0 := by
            rw [List.getD_eq_getElem _ _ hdx]
            exact hpos _ (List.getElem_mem hdx)
          show (match FpVal.div (.fin (-1)) (img.spacing.getD direction 0) with
            | .nan => Except.error Err.InvalidParameter
            | .fin q => if q ≤ 0 then Except.error Err.InvalidParameter
                else Except.ok ((img.lines direction).map
                  (FilterDataArray (CoefficientSolver P q symmetric).2), [(q, symmetric)]))
            = Except.error Err.InvalidParameter
          rw [show FpVal.div (.fin (-1)) (img.spacing.getD direction 0)
              = .fin (-1 / img.spacing.getD direction 0) from rfl]
          have hneg : (-1 : ℚ) / img.spacing.getD direction 0 < 0 :=
            div_neg_of_neg_of_pos (by norm_num) hs
          simp only []
          rw [if_pos (le_of_lt hneg)]
        · subst hn
          rfl
        · omega
    · rw [if_neg hd]
  unfold Execute
  rw [happ]

/-- Witness for C2: sigma = 0 on a concrete image; the supplied output
array `[[9]]` comes back untouched. -/
theorem Execute_invalid_parameter_unmodified_witness :
    Execute samplePrims true (.fin 0) 0 sampleImage [[9]]
      = (.error .InvalidParameter, [[9]]) :=
  Execute_invalid_parameter_unmodified samplePrims true (.fin 0) 0 sampleImage
    [[9]] (by decide) (by decide) (Or.inl rfl)

/-- C3: on a valid configuration, the axis pass computes the effective
sigma as `sigma / spacing[axis]`, invokes `CoefficientSolver` exactly once
(the invocation log is the singleton `[(sigma / spacing, symmetric)]`) and
filters every line of the axis with that single CoefficientSet. -/
theorem ApplyRecursiveFilter_single_solver_call (P : SolverPrims)
    (symmetric : Bool) (σ : ℚ) (img : ImageModel) (direction : ℕ)
    (hd : direction < img.dim) (hext : 4 ≤ img.extent.getD direction 0)
    (hq : 0 < σ / img.spacing.getD direction 0) :
    ApplyRecursiveFilter P symmetric (.fin σ) img direction
      = .ok ((img.lines direction).map
            (FilterDataArray
              (CoefficientSolver P (σ / img.spacing.getD direction 0) symmetric).2),
          [(σ / img.spacing.getD direction 0, symmetric)]) := by
  unfold ApplyRecursiveFilter
  rw [if_pos hd, if_neg (by omega)]
  show (match FpVal.div (.fin σ) (img.spacing.getD direction 0) with
    | .nan => Except.error Err.InvalidParameter
    | .fin q => if q ≤ 0 then Except.error Err.InvalidParameter
        else Except.ok ((img.lines direction).map
          (FilterDataArray (CoefficientSolver P q symmetric).2), [(q, symmetric)]))
    = _
  rw [show FpVal.div (.fin σ) (img.spacing.getD direction 0)
      = .fin (σ / img.spacing.getD direction 0) from rfl]
  simp only []
  rw [if_neg (not_le.mpr hq)]

/-- Witness for C3 on a concrete image with sigma 2 and spacing 1. -/
theorem ApplyRecursiveFilter_single_solver_call_witness :
    ApplyRecursiveFilter samplePrims true (.fin 2) sampleImage 0
      = .ok ((sampleImage.lines 0).map
            (FilterDataArray
              (CoefficientSolver samplePrims (2 / sampleImage.spacing.getD 0 0) true).2),
          [(2 / sampleImage.spacing.getD 0 0, true)]) :=
  ApplyRecursiveFilter_single_solver_call samplePrims true 2 sampleImage 0
    (by decide) (by decide) (by norm_num [sampleImage])

/-- C6: the axis pass fails with `InvalidParameter` when the axis index is
out of `[0, Dimension-1]` or the extent along the axis is smaller than 4. -/
theorem ApplyRecursiveFilter_rejects_bad_axis (P : SolverPrims)
    (symmetric : Bool) (sigma : FpVal) (img : ImageModel) (direction : ℕ)
    (hbad : img.dim ≤ direction ∨ img.extent.getD direction 0 < 4) :
    ApplyRecursiveFilter P symmetric sigma img direction
      = .error .InvalidParameter := by
  unfold ApplyRecursiveFilter
  rcases hbad with h | h
  · rw [if_neg (by omega)]
  · by_cases hd : direction < img.dim
    · rw [if_pos hd, if_pos h]
    · rw [if_neg hd]

/-- Witness for C6: axis index 5 on a 1-dimensional image. -/
theorem ApplyRecursiveFilter_rejects_bad_axis_witness :
    ApplyRecursiveFilter samplePrims true (.fin 2) sampleImage 5
      = .error .InvalidParameter :=
  ApplyRecursiveFilter_rejects_bad_axis samplePrims true (.fin 2) sampleImage 5
    (Or.inl (by decide))

lemma generateDataLoop_stuck (N : ℕ) (r : ℤ) (hN : 0 < N) :
    ∀ fuel (s : GenerateDataLoopState), s.rit = 0 →
      generateDataLoop N r fuel s = none := by
  intro fuel
  induction fuel with
  | zero =>
    intro s h0
    unfold generateDataLoop
    rw [if_pos (by omega)]
  | succ m ih =>
    intro s h0
    unfold generateDataLoop
    rw [if_pos (by omega)]
    exact ih _ (by simp [generateDataStep, h0])

/-- C9 is refuted by the code: on a non-empty requested region (here a
single-pixel region) the write loop of `GenerateData` advances the
flood-fill iterator `it` instead of the region iterator `rit`, so
`rit.IsAtEnd()` never becomes true and no amount of fuel makes the loop
finish. -/
theorem GenerateData_write_loop_diverges :
    ∀ fuel, GenerateData 1 1 fuel = none := by
  intro fuel
  unfold GenerateData
  rw [generateDataLoop_stuck 1 1 (by omega) fuel _ rfl]
  rfl

/-- C10: a default-constructed `ConnectedThresholdImageFilter` has
`m_Lower = NonpositiveMin`, `m_Upper = max`, `m_Seed` the zero index and
`m_ReplaceValue = 1`, and the interval `[m_Lower, m_Upper]` contains every
representable pixel value of the signed `w`-bit pixel type. -/
theorem ConnectedThreshold_constructor_defaults (w dim : ℕ) :
    (mkConnectedThresholdImageFilter w dim).m_Lower = NonpositiveMin w ∧
    (mkConnectedThresholdImageFilter w dim).m_Upper = traitsMax w ∧
    (mkConnectedThresholdImageFilter w dim).m_Seed = List.replicate dim 0 ∧
    (mkConnectedThresholdImageFilter w dim).m_ReplaceValue = 1 ∧
    ∀ v : ℤ, representable w v →
      (mkConnectedThresholdImageFilter w dim).m_Lower ≤ v ∧
        v ≤ (mkConnectedThresholdImageFilter w dim).m_Upper := by
  refine ⟨rfl, rfl, rfl, rfl, ?_⟩
  intro v hv
  obtain ⟨h1, h2⟩ := hv
  constructor
  · exact h1
  · show v ≤ traitsMax w
    unfold traitsMax
    omega

/-- Witness for C10: the defaulted 8-bit filter accepts the pixel value 100. -/
theorem ConnectedThreshold_constructor_defaults_witness :
    (mkConnectedThresholdImageFilter 8 2).m_Lower ≤ 100 ∧
      (100 : ℤ) ≤ (mkConnectedThresholdImageFilter 8 2).m_Upper :=
  (ConnectedThreshold_constructor_defaults 8 2).2.2.2.2 100 (by decide)
